import Mathlib

/-!
Verification of the voice-agent bridge backend (src/backend/main.py).

The development shallowly embeds the parts of the program that the
checked properties are about:

* a JSON-like value type `Jv` standing for the loosely typed Python
  values exchanged on the wire (dicts with a `type` field);
* the base64 codec used for binary audio payloads (`b64e` / `b64d`);
* the tool-call dispatch loop of `gemini_recv_loop` (missing-id and
  missing-name handling, gateway calls, reply-batch accumulation and
  the final `send_tool_response`);
* MCP response normalization (`mcp_result_to_payload`);
* the outbound queue with its drain-then-signal flush protocol;
* the upstream connect logic of `ws_handler` with its one reduced-config
  retry;
* the inbound client message handler (`handle_client_msg`).

External collaborators (the Gemini session, the MCP backend, the JSON
text parser) are passed in as explicit function parameters.
-/

/-- JSON-like Python value, as exchanged on the websocket and inside the
tool-call plumbing.  Numbers are modelled as integers (no claim depends
on float behaviour). -/
inductive Jv : Type
  | null : Jv
  | bool : Bool → Jv
  | num : Int → Jv
  | str : String → Jv
  | arr : List Jv → Jv
  | obj : List (String × Jv) → Jv

/-- Python truthiness of a value (`bool(v)`): `None`, `False`, `0`, empty
string / list / dict are falsy, everything else truthy. -/
def pyTruthy : Jv → Bool
  | Jv.null => false
  | Jv.bool b => b
  | Jv.num n => !(n == 0)
  | Jv.str s => !(s == "")
  | Jv.arr xs => !xs.isEmpty
  | Jv.obj fs => !fs.isEmpty

/-- Python `str(v)` as used in f-string log/error messages.  Scalar cases
are rendered exactly as Python does; container rendering is simplified
(no checked property depends on the rendering of containers inside a
message string). -/
def pyStr : Jv → String
  | Jv.null => "None"
  | Jv.bool b => if b then "True" else "False"
  | Jv.num n => toString n
  | Jv.str s => s
  | Jv.arr _ => "<list>"
  | Jv.obj _ => "<dict>"

/-- Python `str(x)` for an attribute that may be absent (`getattr(.., None)`
yields `None`, rendered as `"None"`). -/
def pyStrOpt : Option Jv → String
  | none => "None"
  | some v => pyStr v

/-- Dictionary lookup, `d.get(key)`: first binding of the key, if any. -/
def jlookup : List (String × Jv) → String → Option Jv
  | [], _ => none
  | (k, v) :: rest, key => if k == key then some v else jlookup rest key

/-- Field access on a value known to be a dict (`none` otherwise). -/
def lookupField (j : Jv) (key : String) : Option Jv :=
  match j with
  | Jv.obj fs => jlookup fs key
  | _ => none

/-! ## Base64 codec (`b64e` / `b64d` in main.py)

Bytes are modelled as natural numbers below 256.  `b64encodeBytes`
follows RFC 4648 exactly as `base64.b64encode` does; `b64decodeBytes`
models `base64.b64decode` on well-formed input (alphabet characters in
groups of four with trailing padding). -/

/-- The standard base64 alphabet. -/
def b64alphabet : List Char :=
  "ABCDEFGHIJKLMNOPQRSTUVWXYZabcdefghijklmnopqrstuvwxyz0123456789+/".data

/-- Character for a 6-bit group. -/
def b64chr (i : Nat) : Char := b64alphabet.getD i '='

/-- Index of a character in the base64 alphabet. -/
def b64idx (c : Char) : Option Nat := b64alphabet.findIdx? (· == c)

/-- RFC 4648 base64 encoding of a byte list, three bytes at a time, with
trailing `=` padding, as performed by `base64.b64encode`. -/
def b64encodeBytes : List Nat → List Char
  | [] => []
  | [a] => [b64chr (a / 4), b64chr (a % 4 * 16), '=', '=']
  | [a, b] => [b64chr (a / 4), b64chr (a % 4 * 16 + b / 16), b64chr (b % 16 * 4), '=']
  | a :: b :: c :: rest =>
      b64chr (a / 4) :: b64chr (a % 4 * 16 + b / 16) ::
      b64chr (b % 16 * 4 + c / 64) :: b64chr (c % 64) :: b64encodeBytes rest

/-- Base64 decoding of a character list: groups of four characters, the
last group possibly padded with one or two `=`.  Malformed input yields
`none` (where `base64.b64decode` raises). -/
def b64decodeBytes : List Char → Option (List Nat)
  | [] => some []
  | c1 :: c2 :: c3 :: c4 :: rest =>
    (match b64idx c1, b64idx c2 with
     | some s1, some s2 =>
       if c3 = '=' then
         (if c4 = '=' ∧ rest = [] then some [s1 * 4 + s2 / 16] else none)
       else
         (match b64idx c3 with
          | some s3 =>
            if c4 = '=' then
              (if rest = [] then some [s1 * 4 + s2 / 16, s2 % 16 * 16 + s3 / 4] else none)
            else
              (match b64idx c4, b64decodeBytes rest with
               | some s4, some bs =>
                 some ((s1 * 4 + s2 / 16) :: (s2 % 16 * 16 + s3 / 4) :: (s3 % 4 * 64 + s4) :: bs)
               | _, _ => none)
          | none => none)
     | _, _ => none)
  | _ => none

/-- `b64e` of main.py: base64-encode bytes to an ASCII string. -/
def b64e (b : List Nat) : String := String.mk (b64encodeBytes b)

/-- `b64d` of main.py: base64-decode an ASCII string to bytes (`none`
models the raising branch). -/
def b64d (s : String) : Option (List Nat) := b64decodeBytes s.data

/-! ## MCP tool results and response normalization (`mcp_result_to_payload`) -/

/-- One element of an MCP result's `content` list; `text` is the value of
the attribute `text` (absent attribute modelled as `none`). -/
structure ContentItem : Type where
  text : Option Jv

/-- An MCP `call_tool` result as probed by the backend:
`structuredContent` and `content` attributes (absent or `None` modelled
as `none`), plus `raw`, the `str(result)` rendering used in the
`empty_tool_response` fallback. -/
structure MCPResult : Type where
  structuredContent : Option Jv
  content : Option (List ContentItem)
  raw : String

/-- `mcp_result_to_payload` of main.py.  `parse` is the external JSON
text parser (`json.loads`), returning `none` where Python raises
`json.JSONDecodeError`. -/
def mcp_result_to_payload (parse : String → Option Jv) (result : MCPResult) : Jv :=
  match result.structuredContent with
  | some structured => structured
  | none =>
    match result.content.getD [] with
    | first :: _ =>
      (match first.text with
       | some (Jv.str text) =>
         (match parse text with
          | some v => v
          | none => Jv.obj [("text", Jv.str text)])
       | _ => Jv.obj [("error", Jv.str "empty_tool_response"), ("raw", Jv.str result.raw)])
    | [] => Jv.obj [("error", Jv.str "empty_tool_response"), ("raw", Jv.str result.raw)]

/-- Normalization policy as worded by the specification, for comparison
with the implementation: (1) structured result returned verbatim,
(2) textual content that parses is returned as the parse, (3) otherwise
the raw text is wrapped, (4) otherwise the empty/unknown fallback. -/
def mcp_payload_policy (parse : String → Option Jv) (result : MCPResult) : Jv :=
  match result.structuredContent with
  | some structured => structured
  | none =>
    match (match result.content.getD [] with
           | first :: _ =>
             (match first.text with
              | some (Jv.str text) => some text
              | _ => none)
           | [] => none) with
    | some text =>
      (match parse text with
       | some v => v
       | none => Jv.obj [("text", Jv.str text)])
    | none => Jv.obj [("error", Jv.str "empty_tool_response"), ("raw", Jv.str result.raw)]

/-! ## Tool-call dispatch (`gemini_recv_loop`, main.py lines 209-266) -/

/-- A function call received from upstream, with its loosely typed
attributes `name`, `id`, `args` (absent attribute modelled as `none`). -/
structure FunctionCall : Type where
  name : Option Jv
  id : Option Jv
  args : Option Jv

/-- The test `isinstance(x, str) and x` applied to an attribute value:
a present, non-empty string. -/
def isNonemptyStr : Option Jv → Bool
  | some (Jv.str s) => !(s == "")
  | _ => false

/-- The string content of an attribute known to hold a string. -/
def asStr : Option Jv → String
  | some (Jv.str s) => s
  | _ => ""

/-- `fn_args = getattr(fc, "args", None) or {}` followed by
`if not isinstance(fn_args, dict): fn_args = {}`. -/
def normalizeArgs (a : Option Jv) : Jv :=
  let a1 := match a with
    | none => Jv.obj []
    | some v => if pyTruthy v then v else Jv.obj []
  match a1 with
  | Jv.obj fs => Jv.obj fs
  | _ => Jv.obj []

/-- `"name": fn_name or "unknown_tool"` in the synthesized failure
entry. -/
def nameOrUnknown (n : Option Jv) : Jv :=
  match n with
  | none => Jv.str "unknown_tool"
  | some v => if pyTruthy v then v else Jv.str "unknown_tool"

/-- The `response` part of a reply-batch entry: `{"output": payload}` on
success, `{"error": message}` on failure. -/
inductive FrResp : Type
  | output : Jv → FrResp
  | error : String → FrResp

/-- One entry of the reply batch sent via `send_tool_response`. -/
structure FunctionResponse : Type where
  id : String
  name : Jv
  response : FrResp

/-- The error Event enqueued to the client for a tool call whose `id`
attribute is missing, non-string or empty. -/
def missingIdEvt (fnName : Option Jv) : Jv :=
  Jv.obj [("type", Jv.str "error"),
          ("message", Jv.str ("Tool call missing id: " ++ pyStrOpt fnName))]

/-- Observable actions of the upstream-receive loop: an MCP gateway
invocation, an `out_q.put`, the final `send_tool_response` of a batch,
and the queue-draining loop run on interruption. -/
inductive LoopAction : Type
  | callGateway : String → Jv → LoopAction
  | enqueue : Jv → LoopAction
  | sendToolResponse : List FunctionResponse → LoopAction
  | flushDrain : LoopAction

/-- Processing of a single function call in the dispatch loop: the
actions it performs and the reply-batch entry it appends (if any).
`gw` is the external MCP gateway (`mcp_call_tool`), whose raising is
modelled by `Except.error` carrying `str(e)`. -/
def processCall (gw : String → Jv → Except String MCPResult)
    (parse : String → Option Jv) (fc : FunctionCall) :
    List LoopAction × Option FunctionResponse :=
  if !(isNonemptyStr fc.id) then
    ([LoopAction.enqueue (missingIdEvt fc.name)], none)
  else if !(isNonemptyStr fc.name) then
    ([], some ⟨asStr fc.id, nameOrUnknown fc.name, FrResp.error "missing_function_name"⟩)
  else
    let fnName := asStr fc.name
    let args := normalizeArgs fc.args
    match gw fnName args with
    | Except.ok result =>
      ([LoopAction.callGateway fnName args],
       some ⟨asStr fc.id, Jv.str fnName, FrResp.output (mcp_result_to_payload parse result)⟩)
    | Except.error e =>
      ([LoopAction.callGateway fnName args],
       some ⟨asStr fc.id, Jv.str fnName, FrResp.error e⟩)

/-- The `for fc in function_calls` loop, threading the accumulated
`function_responses` list. -/
def batchLoop (gw : String → Jv → Except String MCPResult)
    (parse : String → Option Jv) :
    List FunctionCall → List FunctionResponse → List LoopAction × List FunctionResponse
  | [], acc => ([], acc)
  | fc :: rest, acc =>
    let step := processCall gw parse fc
    let acc1 := match step.2 with
      | some r => acc ++ [r]
      | none => acc
    let tail := batchLoop gw parse rest acc1
    (step.1 ++ tail.1, tail.2)

/-- Full processing of one tool-call batch: run the loop, then
`if function_responses: await live_session.send_tool_response(...)`. -/
def processBatch (gw : String → Jv → Except String MCPResult)
    (parse : String → Option Jv) (fcs : List FunctionCall) : List LoopAction :=
  let run := batchLoop gw parse fcs []
  run.1 ++ (if run.2.isEmpty then [] else [LoopAction.sendToolResponse run.2])

/-- Actions of the calls of a batch, without the trailing send. -/
def batchActs (gw : String → Jv → Except String MCPResult)
    (parse : String → Option Jv) (fcs : List FunctionCall) : List LoopAction :=
  (fcs.map (fun fc => (processCall gw parse fc).1)).flatten

/-- Reply entries accumulated over a batch. -/
def batchResponses (gw : String → Jv → Except String MCPResult)
    (parse : String → Option Jv) (fcs : List FunctionCall) : List FunctionResponse :=
  fcs.filterMap (fun fc => (processCall gw parse fc).2)

/-! ## Upstream response units and the receive loop (`gemini_recv_loop`) -/

/-- The `data` attribute of an inline part: either real bytes (passing
the `isinstance(..., (bytes, bytearray))` check) or some other value. -/
inductive PyData : Type
  | bytes : List Nat → PyData
  | other : Jv → PyData

/-- `part.inline_data`: its `data` attribute and the mime type the
upstream attaches to it (never read by the loop). -/
structure InlineData : Type where
  data : Option PyData
  mime_type : Option String

/-- One part of a model turn: optional inline (audio) data and optional
`text` attribute. -/
structure ServerPart : Type where
  inline_data : Option InlineData
  text : Option Jv

/-- `response.server_content`: `model_turn` holds its `parts` list when
present; `interrupted` is `getattr(sc, "interrupted", False)`. -/
structure ServerContent : Type where
  model_turn : Option (List ServerPart)
  interrupted : Bool

/-- `tool_call.function_calls` (absent or `None` modelled as `none`). -/
structure ToolCall : Type where
  function_calls : Option (List FunctionCall)

/-- One response unit read from the upstream stream. -/
structure ServerResponse : Type where
  server_content : Option ServerContent
  tool_call : Option ToolCall

/-- The `{"type": "interrupted"}` Event enqueued after the flush drain. -/
def interruptedEvt : Jv := Jv.obj [("type", Jv.str "interrupted")]

/-- Events enqueued for one content part (main.py lines 269-286): audio
parts are re-encoded in base64 with the hard-coded mime type
`audio/pcm;rate=24000`; non-blank text parts become text Events. -/
def partEvents (p : ServerPart) : List Jv :=
  (match p.inline_data with
   | some inl =>
     (match inl.data with
      | some (PyData.bytes bs) =>
        [Jv.obj [("type", Jv.str "audio"), ("data", Jv.str (b64e bs)),
                 ("mime_type", Jv.str "audio/pcm;rate=24000")]]
      | _ => [])
   | none => [])
  ++ (match p.text with
      | some (Jv.str t) => if t.trim == "" then [] else [Jv.obj [("type", Jv.str "text"), ("text", Jv.str t)]]
      | _ => [])

/-- The parts iterated over for a response
(`if sc and sc.model_turn: for part in sc.model_turn.parts or []`). -/
def contentParts (r : ServerResponse) : List ServerPart :=
  match r.server_content with
  | some sc =>
    (match sc.model_turn with
     | some parts => parts
     | none => [])
  | none => []

/-- `interrupted = getattr(sc, "interrupted", False) if sc else False`. -/
def interruptedOf (r : ServerResponse) : Bool :=
  match r.server_content with
  | some sc => sc.interrupted
  | none => false

/-- The batch the dispatch loop runs on
(`if tool_call and tool_call.function_calls:`). -/
def toolCallBatch (r : ServerResponse) : List FunctionCall :=
  match r.tool_call with
  | some tc =>
    (match tc.function_calls with
     | some fcs => fcs
     | none => [])
  | none => []

/-- All observable actions the receive loop performs for one response
unit, in program order: tool-call dispatch first, then content-part
enqueues, then (on an interruption) the drain of the queue followed by
the enqueue of the single `interrupted` Event. -/
def responseActions (gw : String → Jv → Except String MCPResult)
    (parse : String → Option Jv) (r : ServerResponse) : List LoopAction :=
  (if (toolCallBatch r).isEmpty then [] else processBatch gw parse (toolCallBatch r))
  ++ ((contentParts r).map partEvents).flatten.map LoopAction.enqueue
  ++ (if interruptedOf r then [LoopAction.flushDrain, LoopAction.enqueue interruptedEvt] else [])

/-- The terminal error Event enqueued when reading the upstream stream
raises (main.py line 299). -/
def geminiRecvErrorEvt (e : String) : Jv :=
  Jv.obj [("type", Jv.str "error"), ("message", Jv.str ("Gemini receive error: " ++ e))]

/-! ## The outbound queue (asyncio.Queue of main.py) -/

/-- The `while not out_q.empty(): out_q.get_nowait()` drain loop: each
iteration removes the head; the result is the queue it leaves behind. -/
def drainAll : List Jv → List Jv
  | [] => []
  | _ :: rest => drainAll rest

/-- Effect of one loop action on the FIFO outbound queue: `enqueue`
appends at the tail, `flushDrain` runs the drain loop; gateway calls and
upstream sends leave the queue unchanged. -/
def applyAction (q : List Jv) : LoopAction → List Jv
  | LoopAction.enqueue e => q ++ [e]
  | LoopAction.flushDrain => drainAll q
  | LoopAction.callGateway _ _ => q
  | LoopAction.sendToolResponse _ => q

/-- Queue contents after a sequence of loop actions.  The delivery loop
(`gemini_to_client`) dequeues in FIFO order, so the order of this list
is the order in which buffered Events reach the client. -/
def runActions (q : List Jv) (acts : List LoopAction) : List Jv :=
  acts.foldl applyAction q

/-- A response unit reporting an interruption and nothing else. -/
def interruptResponse : ServerResponse :=
  { server_content := some { model_turn := none, interrupted := true },
    tool_call := none }

/-! ## Upstream connect with reduced-config retry (`ws_handler`) -/

/-- The key filter of the retry:
`{k: v for k, v in cfg.items() if k in {"response_modalities", "system_instruction", "tools"}}`. -/
def minimalCfg {α : Type} (cfg : List (String × α)) : List (String × α) :=
  cfg.filter (fun kv => ["response_modalities", "system_instruction", "tools"].contains kv.1)

/-- Connect attempt sequence of `ws_handler`: the full configuration,
then on failure exactly one retry with the reduced configuration. -/
def connectAttempts {α σ : Type} (connect : List (String × α) → Except String σ)
    (cfg : List (String × α)) : List (List (String × α)) :=
  match connect cfg with
  | Except.ok _ => [cfg]
  | Except.error _ => [cfg, minimalCfg cfg]

/-- Outcome of the connect phase: the live session together with the
configuration it was established with, or the error of the failed
retry. -/
def establishUpstream {α σ : Type} (connect : List (String × α) → Except String σ)
    (cfg : List (String × α)) : Except String (σ × List (String × α)) :=
  match connect cfg with
  | Except.ok s => Except.ok (s, cfg)
  | Except.error _ =>
    (match connect (minimalCfg cfg) with
     | Except.ok s => Except.ok (s, minimalCfg cfg)
     | Except.error e => Except.error e)

/-- The `ready` Event sent to the client once the session is live. -/
def readyEvt (model : String) : Jv :=
  Jv.obj [("type", Jv.str "ready"), ("model", Jv.str model)]

/-- Connect phase as observed by the client: on success the bridge
reaches the relay (ACTIVE) with the configuration the session was
established with, having sent exactly the `ready` Event; on failure the
exception escapes to the outer handler. -/
def connectPhase {α σ : Type} (connect : List (String × α) → Except String σ)
    (cfg : List (String × α)) (model : String) :
    Except String (List (String × α) × List Jv) :=
  match establishUpstream connect cfg with
  | Except.ok su => Except.ok (su.2, [readyEvt model])
  | Except.error e => Except.error e

/-! ## Inbound client messages (`handle_client_msg`) -/

/-- Observable actions of the client-message handler: the three
`send_realtime_input` variants and a `send_json` back to the client. -/
inductive ClientAction : Type
  | sendRealtimeAudio : List Nat → Jv → ClientAction
  | sendRealtimeText : String → ClientAction
  | sendActivityEnd : ClientAction
  | wsSend : Jv → ClientAction

/-- `handle_client_msg` of main.py.  `dec` is the external base64
decoder applied to the `data` string (its `Except.error` models the
raising branch of `b64d`, which propagates out of the handler).  The
result is the action list of the handler run, or the escaping
exception. -/
def handle_client_msg (dec : String → Except String (List Nat))
    (msg : List (String × Jv)) : Except String (List ClientAction) :=
  match jlookup msg "type" with
  | some (Jv.str "audio") =>
    let mime := (jlookup msg "mime_type").getD (Jv.str "audio/pcm;rate=16000")
    (match jlookup msg "data" with
     | some (Jv.str s) => (dec s).map (fun bs => [ClientAction.sendRealtimeAudio bs mime])
     | _ => Except.ok [])
  | some (Jv.str "text") =>
    (match (jlookup msg "text").getD (Jv.str "") with
     | Jv.str t => if t == "" then Except.ok [] else Except.ok [ClientAction.sendRealtimeText t]
     | _ => Except.ok [])
  | some (Jv.str "interrupt") => Except.ok [ClientAction.sendActivityEnd]
  | some (Jv.str "ping") => Except.ok [ClientAction.wsSend (Jv.obj [("type", Jv.str "pong")])]
  | some (Jv.str "config") => Except.ok []
  | t =>
    Except.ok [ClientAction.wsSend
      (Jv.obj [("type", Jv.str "error"),
               ("message", Jv.str ("Unknown message type: " ++ pyStrOpt t))])]

/-! ## Client-bound Event encoding -/

/-- The client-bound Event union of the specification (outbound message
types of the wire protocol). -/
inductive Event : Type
  | audio : List Nat → String → Event
  | text : String → Event
  | interrupted : Event
  | error : String → Event
  | ready : String → Event
  | pong : Event

/-- Encoding of a client-bound Event as the wire object the backend
constructs for it (binary payloads via `b64e`). -/
def encodeEvent : Event → Jv
  | Event.audio d m =>
    Jv.obj [("type", Jv.str "audio"), ("data", Jv.str (b64e d)), ("mime_type", Jv.str m)]
  | Event.text s => Jv.obj [("type", Jv.str "text"), ("text", Jv.str s)]
  | Event.interrupted => Jv.obj [("type", Jv.str "interrupted")]
  | Event.error m => Jv.obj [("type", Jv.str "error"), ("message", Jv.str m)]
  | Event.ready m => Jv.obj [("type", Jv.str "ready"), ("model", Jv.str m)]
  | Event.pong => Jv.obj [("type", Jv.str "pong")]

/-- Modelled from the spec: the repository contains no decoder for
client-bound Events (the client is outside the repository), so the
decoding direction of the round-trip property of section 4.1 is taken
from the wire format the spec describes: dispatch on the `type` field
and invert the field-by-field encoding, with `b64d` for binary
payloads. -/
def decodeEvent (j : Jv) : Option Event :=
  match lookupField j "type" with
  | some (Jv.str "audio") =>
    (match lookupField j "data", lookupField j "mime_type" with
     | some (Jv.str d), some (Jv.str m) => (b64d d).map (fun bs => Event.audio bs m)
     | _, _ => none)
  | some (Jv.str "text") =>
    (match lookupField j "text" with
     | some (Jv.str t) => some (Event.text t)
     | _ => none)
  | some (Jv.str "interrupted") => some Event.interrupted
  | some (Jv.str "error") =>
    (match lookupField j "message" with
     | some (Jv.str m) => some (Event.error m)
     | _ => none)
  | some (Jv.str "ready") =>
    (match lookupField j "model" with
     | some (Jv.str m) => some (Event.ready m)
     | _ => none)
  | some (Jv.str "pong") => some Event.pong
  | _ => none

/-- Well-formedness of an Event: audio payload bytes are bytes. -/
def wfEvent : Event → Prop
  | Event.audio d _ => ∀ x ∈ d, x < 256
  | _ => True

/-- A gateway oracle whose every call fails, used to instantiate
universally quantified statements at concrete inputs. -/
def gwFail : String → Jv → Except String MCPResult := fun _ _ => Except.error "backend down"

/-- A gateway oracle whose every call succeeds with a fixed structured
result. -/
def gwOk : String → Jv → Except String MCPResult :=
  fun _ _ => Except.ok ⟨some (Jv.obj [("ok", Jv.bool true)]), none, "res"⟩

/-- A JSON text parser oracle that never parses. -/
def parseNone : String → Option Jv := fun _ => none

theorem b64idx_chr_fin : ∀ i : Fin 64, b64idx (b64chr i.val) = some i.val := by decide

theorem b64chr_ne_pad_fin : ∀ i : Fin 64, b64chr i.val ≠ '=' := by decide

theorem b64idx_chr {i : Nat} (h : i < 64) : b64idx (b64chr i) = some i :=
  b64idx_chr_fin ⟨i, h⟩

theorem b64chr_ne_pad {i : Nat} (h : i < 64) : b64chr i ≠ '=' :=
  b64chr_ne_pad_fin ⟨i, h⟩

theorem b64_roundtrip : ∀ (l : List Nat), (∀ x ∈ l, x < 256) →
    b64decodeBytes (b64encodeBytes l) = some l
  | [] => fun _ => rfl
  | [a] => fun h => by
    have ha : a < 256 := h a (by simp)
    have e1 : a / 4 * 4 + a % 4 * 16 / 16 = a := by omega
    simp only [b64encodeBytes, b64decodeBytes]
    rw [b64idx_chr (by omega), b64idx_chr (by omega)]
    dsimp only
    simp only [and_self, if_true, reduceIte, e1]
  | [a, b] => fun h => by
    have ha : a < 256 := h a (by simp)
    have hb : b < 256 := h b (by simp)
    have e1 : a / 4 * 4 + (a % 4 * 16 + b / 16) / 16 = a := by omega
    have e2 : (a % 4 * 16 + b / 16) % 16 * 16 + b % 16 * 4 / 4 = b := by omega
    simp only [b64encodeBytes, b64decodeBytes]
    rw [b64idx_chr (by omega), b64idx_chr (by omega)]
    dsimp only
    rw [if_neg (b64chr_ne_pad (by omega))]
    rw [b64idx_chr (by omega)]
    dsimp only
    simp only [if_true, reduceIte, e1, e2]
  | a :: b :: c :: rest => fun h => by
    have ha : a < 256 := h a (by simp)
    have hb : b < 256 := h b (by simp)
    have hc : c < 256 := h c (by simp)
    have ih := b64_roundtrip rest (fun x hx => h x (by simp at hx ⊢; tauto))
    have e1 : a / 4 * 4 + (a % 4 * 16 + b / 16) / 16 = a := by omega
    have e2 : (a % 4 * 16 + b / 16) % 16 * 16 + (b % 16 * 4 + c / 64) / 4 = b := by omega
    have e3 : (b % 16 * 4 + c / 64) % 4 * 64 + c % 64 = c := by omega
    simp only [b64encodeBytes, b64decodeBytes]
    rw [b64idx_chr (by omega), b64idx_chr (by omega)]
    dsimp only
    rw [if_neg (b64chr_ne_pad (by omega))]
    rw [b64idx_chr (by omega)]
    dsimp only
    rw [if_neg (b64chr_ne_pad (by omega))]
    rw [b64idx_chr (by omega), ih]
    dsimp only
    simp only [e1, e2, e3]

theorem drainAll_eq_nil : ∀ (q : List Jv), drainAll q = []
  | [] => rfl
  | _ :: rest => drainAll_eq_nil rest

theorem runActions_append (q : List Jv) (acts1 acts2 : List LoopAction) :
    runActions q (acts1 ++ acts2) = runActions (runActions q acts1) acts2 :=
  List.foldl_append ..

/-- C1: when the upstream session reports an interruption, the receive
loop drains every Event buffered in the outbound queue and then enqueues
exactly one `interrupted` Event: whatever the queue held before the
response was processed, afterwards it holds exactly `[interrupted]`; in
particular, after enqueues of A, B, C, an interruption, and an enqueue
of D, the FIFO delivery order is exactly `[interrupted, D]`, so A, B, C
are never delivered. -/
theorem c1_flush_drains_then_signals
    (gw : String → Jv → Except String MCPResult) (parse : String → Option Jv)
    (r : ServerResponse) (hr : interruptedOf r = true) (A B C D : Jv) :
    (∀ q : List Jv, runActions q (responseActions gw parse r) = [interruptedEvt]) ∧
    runActions (runActions [A, B, C] (responseActions gw parse r)) [LoopAction.enqueue D]
      = [interruptedEvt, D] ∧
    (∀ e, e ∈ runActions (runActions [A, B, C] (responseActions gw parse r))
        [LoopAction.enqueue D] → e = interruptedEvt ∨ e = D) := by
  have key : ∀ q : List Jv, runActions q (responseActions gw parse r) = [interruptedEvt] := by
    intro q
    unfold responseActions
    rw [hr, runActions_append, runActions_append]
    show runActions _ [LoopAction.flushDrain, LoopAction.enqueue interruptedEvt] = _
    simp [runActions, applyAction, drainAll_eq_nil]
  refine ⟨key, ?_, ?_⟩
  · rw [key]; rfl
  · intro e he
    rw [key] at he
    simp only [runActions, List.foldl_cons, List.foldl_nil, applyAction,
      List.cons_append, List.nil_append, List.mem_cons, List.mem_singleton,
      List.not_mem_nil] at he
    tauto

theorem c1_flush_drains_then_signals_witness :
    (∀ q : List Jv, runActions q
        (responseActions (fun _ _ => Except.error "e") (fun _ => none) interruptResponse)
      = [interruptedEvt]) ∧
    runActions (runActions [Jv.num 1, Jv.num 2, Jv.num 3]
        (responseActions (fun _ _ => Except.error "e") (fun _ => none) interruptResponse))
      [LoopAction.enqueue (Jv.num 4)] = [interruptedEvt, Jv.num 4] ∧
    (∀ e, e ∈ runActions (runActions [Jv.num 1, Jv.num 2, Jv.num 3]
        (responseActions (fun _ _ => Except.error "e") (fun _ => none) interruptResponse))
        [LoopAction.enqueue (Jv.num 4)] → e = interruptedEvt ∨ e = Jv.num 4) :=
  c1_flush_drains_then_signals (fun _ _ => Except.error "e") (fun _ => none)
    interruptResponse rfl (Jv.num 1) (Jv.num 2) (Jv.num 3) (Jv.num 4)

theorem batchLoop_eq (gw : String → Jv → Except String MCPResult)
    (parse : String → Option Jv) :
    ∀ (fcs : List FunctionCall) (acc : List FunctionResponse),
      batchLoop gw parse fcs acc = (batchActs gw parse fcs, acc ++ batchResponses gw parse fcs)
  | [], acc => by simp [batchLoop, batchActs, batchResponses]
  | fc :: rest, acc => by
    have ih := batchLoop_eq gw parse rest
    cases h : (processCall gw parse fc).2 with
    | none =>
      simp [batchLoop, batchActs, batchResponses, h, ih]
    | some r =>
      simp [batchLoop, batchActs, batchResponses, h, ih]

theorem processCall_acts (gw : String → Jv → Except String MCPResult)
    (parse : String → Option Jv) (fc : FunctionCall) :
    ∀ a ∈ (processCall gw parse fc).1,
      a = LoopAction.enqueue (missingIdEvt fc.name) ∨
      ∃ n ag, a = LoopAction.callGateway n ag := by
  intro a ha
  cases hId : isNonemptyStr fc.id with
  | false => simp [processCall, hId] at ha; exact Or.inl ha
  | true =>
    cases hName : isNonemptyStr fc.name with
    | false => simp [processCall, hId, hName] at ha
    | true =>
      cases hgw : gw (asStr fc.name) (normalizeArgs fc.args) with
      | ok r =>
        simp [processCall, hId, hName, hgw] at ha
        exact Or.inr ⟨_, _, ha⟩
      | error e =>
        simp [processCall, hId, hName, hgw] at ha
        exact Or.inr ⟨_, _, ha⟩

/-- C2: a tool-call request whose `id` attribute is missing, not a
string, or empty never reaches the Tool Gateway: its processing performs
exactly one action, the enqueue of one error Event describing the
malformed request, and contributes no entry to the upstream reply batch
(so in any batch its entry is simply absent). -/
theorem c2_missing_id_rejected (gw : String → Jv → Except String MCPResult)
    (parse : String → Option Jv) (fc : FunctionCall)
    (h : isNonemptyStr fc.id = false) :
    processCall gw parse fc = ([LoopAction.enqueue (missingIdEvt fc.name)], none) ∧
    (∀ n ag, LoopAction.callGateway n ag ∉ (processCall gw parse fc).1) ∧
    (∀ fcs, batchResponses gw parse fcs =
      fcs.filterMap (fun c => (processCall gw parse c).2) ∧ (processCall gw parse fc).2 = none) := by
  have he : processCall gw parse fc = ([LoopAction.enqueue (missingIdEvt fc.name)], none) := by
    simp [processCall, h]
  refine ⟨he, ?_, ?_⟩
  · intro n ag hmem
    rw [he] at hmem
    simp at hmem
  · intro fcs
    exact ⟨rfl, by rw [he]⟩

theorem c2_missing_id_rejected_witness :
    processCall gwFail parseNone ⟨some (Jv.str "list_products"), none, none⟩
      = ([LoopAction.enqueue (missingIdEvt (some (Jv.str "list_products")))], none) ∧
    (∀ n ag, LoopAction.callGateway n ag ∉
      (processCall gwFail parseNone ⟨some (Jv.str "list_products"), none, none⟩).1) ∧
    (∀ fcs, batchResponses gwFail parseNone fcs =
      fcs.filterMap (fun c => (processCall gwFail parseNone c).2) ∧
      (processCall gwFail parseNone ⟨some (Jv.str "list_products"), none, none⟩).2 = none) :=
  c2_missing_id_rejected gwFail parseNone ⟨some (Jv.str "list_products"), none, none⟩ rfl

/-- C3: a tool-call request with a non-empty string `id` but a missing,
non-string or empty `name` skips the Gateway entirely (its processing
performs no action at all) and contributes the synthesized failure entry
`response = error "missing_function_name"` under its identifier to the
upstream reply batch of any batch containing it. -/
theorem c3_missing_name_synthesized (gw : String → Jv → Except String MCPResult)
    (parse : String → Option Jv) (fc : FunctionCall)
    (hid : isNonemptyStr fc.id = true) (hname : isNonemptyStr fc.name = false) :
    processCall gw parse fc =
      ([], some ⟨asStr fc.id, nameOrUnknown fc.name, FrResp.error "missing_function_name"⟩) ∧
    (∀ fcs, fc ∈ fcs →
      (⟨asStr fc.id, nameOrUnknown fc.name, FrResp.error "missing_function_name"⟩ : FunctionResponse)
        ∈ batchResponses gw parse fcs) := by
  have he : processCall gw parse fc =
      ([], some ⟨asStr fc.id, nameOrUnknown fc.name, FrResp.error "missing_function_name"⟩) := by
    simp [processCall, hid, hname]
  refine ⟨he, ?_⟩
  intro fcs hmem
  exact List.mem_filterMap.mpr ⟨fc, hmem, by rw [he]⟩

theorem c3_missing_name_synthesized_witness :
    processCall gwFail parseNone ⟨some (Jv.str ""), some (Jv.str "call-7"), none⟩ =
      ([], some ⟨"call-7", Jv.str "unknown_tool", FrResp.error "missing_function_name"⟩) ∧
    (∀ fcs, (⟨some (Jv.str ""), some (Jv.str "call-7"), none⟩ : FunctionCall) ∈ fcs →
      (⟨"call-7", Jv.str "unknown_tool", FrResp.error "missing_function_name"⟩ : FunctionResponse)
        ∈ batchResponses gwFail parseNone fcs) :=
  c3_missing_name_synthesized gwFail parseNone
    ⟨some (Jv.str ""), some (Jv.str "call-7"), none⟩ rfl rfl

/-- C4: a tool-call request with valid `id` and `name` whose Gateway
call raises produces the reply entry `{id, name, response: {error: msg}}`,
enqueues no Event to the client, and never terminates the loop: the
exception is absorbed into the entry and the batch continues with the
remaining requests. -/
theorem c4_gateway_failure_recoverable (gw : String → Jv → Except String MCPResult)
    (parse : String → Option Jv) (fc : FunctionCall) (msg : String)
    (hid : isNonemptyStr fc.id = true) (hname : isNonemptyStr fc.name = true)
    (hgw : gw (asStr fc.name) (normalizeArgs fc.args) = Except.error msg) :
    processCall gw parse fc =
      ([LoopAction.callGateway (asStr fc.name) (normalizeArgs fc.args)],
       some ⟨asStr fc.id, Jv.str (asStr fc.name), FrResp.error msg⟩) ∧
    (∀ e, LoopAction.enqueue e ∉ (processCall gw parse fc).1) ∧
    (∀ rest, batchActs gw parse (fc :: rest)
      = (processCall gw parse fc).1 ++ batchActs gw parse rest) := by
  have he : processCall gw parse fc =
      ([LoopAction.callGateway (asStr fc.name) (normalizeArgs fc.args)],
       some ⟨asStr fc.id, Jv.str (asStr fc.name), FrResp.error msg⟩) := by
    simp [processCall, hid, hname, hgw]
  refine ⟨he, ?_, ?_⟩
  · intro e hmem
    rw [he] at hmem
    simp at hmem
  · intro rest
    simp [batchActs]

theorem c4_gateway_failure_recoverable_witness :
    processCall gwFail parseNone ⟨some (Jv.str "search_products"), some (Jv.str "call-9"), none⟩ =
      ([LoopAction.callGateway "search_products" (Jv.obj [])],
       some ⟨"call-9", Jv.str "search_products", FrResp.error "backend down"⟩) ∧
    (∀ e, LoopAction.enqueue e ∉
      (processCall gwFail parseNone
        ⟨some (Jv.str "search_products"), some (Jv.str "call-9"), none⟩).1) ∧
    (∀ rest, batchActs gwFail parseNone
        (⟨some (Jv.str "search_products"), some (Jv.str "call-9"), none⟩ :: rest)
      = (processCall gwFail parseNone
          ⟨some (Jv.str "search_products"), some (Jv.str "call-9"), none⟩).1
        ++ batchActs gwFail parseNone rest) :=
  c4_gateway_failure_recoverable gwFail parseNone
    ⟨some (Jv.str "search_products"), some (Jv.str "call-9"), none⟩ "backend down" rfl rfl rfl

/-- C5: for every received tool-call batch, the per-request actions
(gateway calls and error enqueues) never include an upstream send; the
tool-response message is sent as a single action placed after all of
them, carrying the entries of every resolved request of the batch, and
it is present exactly when at least one reply entry was produced. -/
theorem c5_batch_sent_whole (gw : String → Jv → Except String MCPResult)
    (parse : String → Option Jv) (fcs : List FunctionCall) :
    processBatch gw parse fcs =
      batchActs gw parse fcs ++
        (if (batchResponses gw parse fcs).isEmpty then []
         else [LoopAction.sendToolResponse (batchResponses gw parse fcs)]) ∧
    (∀ rs, LoopAction.sendToolResponse rs ∉ batchActs gw parse fcs) ∧
    ((batchResponses gw parse fcs).isEmpty = true →
      ∀ rs, LoopAction.sendToolResponse rs ∉ processBatch gw parse fcs) := by
  have hstruct : processBatch gw parse fcs =
      batchActs gw parse fcs ++
        (if (batchResponses gw parse fcs).isEmpty then []
         else [LoopAction.sendToolResponse (batchResponses gw parse fcs)]) := by
    unfold processBatch
    rw [batchLoop_eq]
    simp
  have hnosend : ∀ rs, LoopAction.sendToolResponse rs ∉ batchActs gw parse fcs := by
    intro rs hmem
    unfold batchActs at hmem
    rw [List.mem_flatten] at hmem
    obtain ⟨l, hl, hal⟩ := hmem
    rw [List.mem_map] at hl
    obtain ⟨fc, _, rfl⟩ := hl
    rcases processCall_acts gw parse fc _ hal with h | ⟨n, ag, h⟩ <;> cases h
  refine ⟨hstruct, hnosend, ?_⟩
  intro hempty rs hmem
  rw [hstruct, hempty] at hmem
  simp only [if_true, List.append_nil] at hmem
  exact hnosend rs hmem

theorem c5_batch_sent_whole_witness :
    processBatch gwFail parseNone [⟨some (Jv.str "t"), some (Jv.str "c1"), none⟩] =
      batchActs gwFail parseNone [⟨some (Jv.str "t"), some (Jv.str "c1"), none⟩] ++
        (if (batchResponses gwFail parseNone [⟨some (Jv.str "t"), some (Jv.str "c1"), none⟩]).isEmpty
         then []
         else [LoopAction.sendToolResponse
           (batchResponses gwFail parseNone [⟨some (Jv.str "t"), some (Jv.str "c1"), none⟩])]) ∧
    (∀ rs, LoopAction.sendToolResponse rs ∉
      batchActs gwFail parseNone [⟨some (Jv.str "t"), some (Jv.str "c1"), none⟩]) ∧
    ((batchResponses gwFail parseNone [⟨some (Jv.str "t"), some (Jv.str "c1"), none⟩]).isEmpty = true →
      ∀ rs, LoopAction.sendToolResponse rs ∉
        processBatch gwFail parseNone [⟨some (Jv.str "t"), some (Jv.str "c1"), none⟩]) :=
  c5_batch_sent_whole gwFail parseNone [⟨some (Jv.str "t"), some (Jv.str "c1"), none⟩]

/-- C6: response normalization applies exactly the specified steps in
order — structured result verbatim, else parsed textual content, else
the raw text wrapped as a text object, else the `empty_tool_response`
fallback — and is deterministic. -/
theorem c6_normalization_policy (parse : String → Option Jv) (result : MCPResult) :
    mcp_result_to_payload parse result = mcp_payload_policy parse result ∧
    (∀ result2, result = result2 →
      mcp_result_to_payload parse result = mcp_result_to_payload parse result2) := by
  refine ⟨?_, fun result2 h => by rw [h]⟩
  obtain ⟨sc, ct, raw⟩ := result
  cases sc with
  | some s => rfl
  | none =>
    cases ct with
    | none => rfl
    | some l =>
      cases l with
      | nil => rfl
      | cons first rest =>
        obtain ⟨ftext⟩ := first
        cases ftext with
        | none => rfl
        | some v =>
          cases v with
          | str t =>
            cases hp : parse t with
            | some u => simp [mcp_result_to_payload, mcp_payload_policy, hp]
            | none => simp [mcp_result_to_payload, mcp_payload_policy, hp]
          | null => rfl
          | bool b => rfl
          | num n => rfl
          | arr xs => rfl
          | obj fs => rfl

theorem c6_normalization_policy_witness :
    mcp_result_to_payload parseNone ⟨none, some [⟨some (Jv.str "volume")⟩], "raw result"⟩
      = mcp_payload_policy parseNone ⟨none, some [⟨some (Jv.str "volume")⟩], "raw result"⟩ ∧
    mcp_result_to_payload parseNone ⟨none, some [⟨some (Jv.str "volume")⟩], "raw result"⟩
      = mcp_result_to_payload parseNone ⟨none, some [⟨some (Jv.str "volume")⟩], "raw result"⟩ :=
  ⟨(c6_normalization_policy parseNone ⟨none, some [⟨some (Jv.str "volume")⟩], "raw result"⟩).1,
   (c6_normalization_policy parseNone ⟨none, some [⟨some (Jv.str "volume")⟩], "raw result"⟩).2
     ⟨none, some [⟨some (Jv.str "volume")⟩], "raw result"⟩ rfl⟩

/-- C7: when the upstream connect with the full configuration fails, the
bridge makes exactly one retry, with the reduced configuration whose
entries are exactly those of the full configuration keyed
`response_modalities`, `system_instruction` or `tools`; if the retry
succeeds the connect phase succeeds with the reduced configuration as
the session's configuration and the only Event sent to the client is
`ready` — no error Event. -/
theorem c7_reduced_config_retry {α σ : Type} (connect : List (String × α) → Except String σ)
    (cfg : List (String × α)) (model : String) (s : σ) (e : String)
    (hfull : connect cfg = Except.error e)
    (hmin : connect (minimalCfg cfg) = Except.ok s) :
    connectAttempts connect cfg = [cfg, minimalCfg cfg] ∧
    connectPhase connect cfg model = Except.ok (minimalCfg cfg, [readyEvt model]) ∧
    (∀ kv, kv ∈ minimalCfg cfg →
      kv ∈ cfg ∧ kv.1 ∈ ["response_modalities", "system_instruction", "tools"]) ∧
    (∀ j, j ∈ [readyEvt model] → lookupField j "type" = some (Jv.str "ready")) := by
  refine ⟨?_, ?_, ?_, ?_⟩
  · simp [connectAttempts, hfull]
  · unfold connectPhase establishUpstream
    rw [hfull, hmin]
  · intro kv hkv
    rw [minimalCfg, List.mem_filter] at hkv
    refine ⟨hkv.1, ?_⟩
    simpa using hkv.2
  · intro j hj
    rw [List.mem_singleton] at hj
    subst hj
    rfl

theorem c7_reduced_config_retry_witness :
    connectAttempts
        (fun c : List (String × Nat) => if c.length == 1 then Except.ok 0 else Except.error "rejected")
        [("realtime_input_config", 1), ("system_instruction", 2)]
      = [[("realtime_input_config", 1), ("system_instruction", 2)],
         minimalCfg [("realtime_input_config", 1), ("system_instruction", 2)]] ∧
    connectPhase
        (fun c : List (String × Nat) => if c.length == 1 then Except.ok 0 else Except.error "rejected")
        [("realtime_input_config", 1), ("system_instruction", 2)] "gemini-2.5"
      = Except.ok (minimalCfg [("realtime_input_config", 1), ("system_instruction", 2)],
                   [readyEvt "gemini-2.5"]) ∧
    (∀ kv, kv ∈ minimalCfg [("realtime_input_config", 1), ("system_instruction", 2)] →
      kv ∈ [("realtime_input_config", 1), ("system_instruction", 2)] ∧
      kv.1 ∈ ["response_modalities", "system_instruction", "tools"]) ∧
    (∀ j, j ∈ [readyEvt "gemini-2.5"] → lookupField j "type" = some (Jv.str "ready")) :=
  c7_reduced_config_retry
    (fun c : List (String × Nat) => if c.length == 1 then Except.ok 0 else Except.error "rejected")
    [("realtime_input_config", 1), ("system_instruction", 2)] "gemini-2.5" 0 "rejected"
    rfl rfl

/-- C8: Event encoding is lossless: base64 round-trips on every byte
string, and decoding the wire object of every representable client-bound
Event restores the Event. -/
theorem c8_event_roundtrip :
    (∀ b : List Nat, (∀ x ∈ b, x < 256) → b64d (b64e b) = some b) ∧
    (∀ e : Event, wfEvent e → decodeEvent (encodeEvent e) = some e) := by
  have hb64 : ∀ b : List Nat, (∀ x ∈ b, x < 256) → b64d (b64e b) = some b := by
    intro b hb
    show b64decodeBytes (String.mk (b64encodeBytes b)).data = some b
    exact b64_roundtrip b hb
  refine ⟨hb64, ?_⟩
  intro e hwf
  cases e with
  | audio d m =>
    have hstep : decodeEvent (encodeEvent (Event.audio d m))
        = (b64d (b64e d)).map (fun bs => Event.audio bs m) := rfl
    rw [hstep, hb64 d hwf]
    rfl
  | text s => rfl
  | interrupted => rfl
  | error m => rfl
  | ready m => rfl
  | pong => rfl

theorem c8_event_roundtrip_witness :
    b64d (b64e [0, 1, 127, 128, 255]) = some [0, 1, 127, 128, 255] ∧
    decodeEvent (encodeEvent (Event.audio [0, 255, 16] "audio/pcm;rate=24000"))
      = some (Event.audio [0, 255, 16] "audio/pcm;rate=24000") :=
  ⟨c8_event_roundtrip.1 [0, 1, 127, 128, 255] (by decide),
   c8_event_roundtrip.2 (Event.audio [0, 255, 16] "audio/pcm;rate=24000")
     (show ∀ x ∈ ([0, 255, 16] : List Nat), x < 256 by decide)⟩

theorem partEvents_shape (p : ServerPart) :
    ∀ e ∈ partEvents p,
      (∃ bs, e = Jv.obj [("type", Jv.str "audio"), ("data", Jv.str (b64e bs)),
                         ("mime_type", Jv.str "audio/pcm;rate=24000")]) ∨
      (∃ t, e = Jv.obj [("type", Jv.str "text"), ("text", Jv.str t)]) := by
  obtain ⟨ind, txt⟩ := p
  intro e he
  unfold partEvents at he
  rw [List.mem_append] at he
  rcases he with h | h
  · left
    cases ind with
    | none => simp at h
    | some inl =>
      obtain ⟨dat, mim⟩ := inl
      cases dat with
      | none => simp at h
      | some pd =>
        cases pd with
        | bytes bs =>
          simp only [List.mem_singleton] at h
          exact ⟨bs, h⟩
        | other v => simp at h
  · right
    cases txt with
    | none => simp at h
    | some v =>
      cases v with
      | str t =>
        cases ht : t.trim == "" with
        | true => simp [ht] at h
        | false =>
          simp only [ht, if_false, Bool.false_eq_true, List.mem_singleton] at h
          exact ⟨t, h⟩
      | null => simp at h
      | bool b => simp at h
      | num n => simp at h
      | arr xs => simp at h
      | obj fs => simp at h

theorem processBatch_enqueue_shape (gw : String → Jv → Except String MCPResult)
    (parse : String → Option Jv) (fcs : List FunctionCall) (e : Jv)
    (h : LoopAction.enqueue e ∈ processBatch gw parse fcs) :
    ∃ fc ∈ fcs, e = missingIdEvt fc.name := by
  unfold processBatch at h
  rw [batchLoop_eq] at h
  simp only [List.mem_append] at h
  rcases h with h | h
  · unfold batchActs at h
    rw [List.mem_flatten] at h
    obtain ⟨l, hl, hel⟩ := h
    rw [List.mem_map] at hl
    obtain ⟨fc, hfc, rfl⟩ := hl
    rcases processCall_acts gw parse fc _ hel with heq | ⟨n, ag, heq⟩
    · injection heq with h1
      exact ⟨fc, hfc, h1⟩
    · cases heq
  · simp only [List.nil_append] at h
    by_cases hnil : (batchResponses gw parse fcs).isEmpty = true
    · rw [if_pos hnil] at h
      cases h
    · rw [if_neg hnil] at h
      rw [List.mem_singleton] at h
      cases h

/-- C9: every audio Event the upstream-receive loop enqueues carries the
hard-coded mime type `audio/pcm;rate=24000`, regardless of the mime type
the upstream attached to the inline data; the only enqueue outside
response processing, the terminal receive-error Event, is typed
`error`, not `audio`. -/
theorem c9_audio_mime_hardcoded (gw : String → Jv → Except String MCPResult)
    (parse : String → Option Jv) (r : ServerResponse) (e : Jv)
    (hmem : LoopAction.enqueue e ∈ responseActions gw parse r)
    (htype : lookupField e "type" = some (Jv.str "audio")) :
    lookupField e "mime_type" = some (Jv.str "audio/pcm;rate=24000") ∧
    (∀ m, lookupField (geminiRecvErrorEvt m) "type" = some (Jv.str "error")) := by
  refine ⟨?_, fun m => rfl⟩
  unfold responseActions at hmem
  rw [List.mem_append, List.mem_append] at hmem
  rcases hmem with (h | h) | h
  · exfalso
    have hb : LoopAction.enqueue e ∈ processBatch gw parse (toolCallBatch r) := by
      by_cases hnil : (toolCallBatch r).isEmpty
      · rw [if_pos hnil] at h; cases h
      · rw [if_neg hnil] at h; exact h
    obtain ⟨fc, _, rfl⟩ := processBatch_enqueue_shape gw parse (toolCallBatch r) e hb
    rw [show lookupField (missingIdEvt fc.name) "type" = some (Jv.str "error") from rfl] at htype
    simp at htype
  · rw [List.mem_map] at h
    obtain ⟨x, hx, hxe⟩ := h
    injection hxe with hxe
    subst hxe
    rw [List.mem_flatten] at hx
    obtain ⟨l, hl, hel⟩ := hx
    rw [List.mem_map] at hl
    obtain ⟨p, _, rfl⟩ := hl
    rcases partEvents_shape p x hel with ⟨bs, rfl⟩ | ⟨t, rfl⟩
    · rfl
    · exfalso
      rw [show lookupField (Jv.obj [("type", Jv.str "text"), ("text", Jv.str t)]) "type"
            = some (Jv.str "text") from rfl] at htype
      simp at htype
  · exfalso
    by_cases hint : interruptedOf r = true
    · rw [if_pos hint] at h
      simp only [List.mem_cons, List.not_mem_nil, or_false] at h
      rcases h with h | h
      · exact LoopAction.noConfusion h
      · injection h with h
        subst h
        rw [show lookupField interruptedEvt "type" = some (Jv.str "interrupted") from rfl] at htype
        simp at htype
    · rw [if_neg hint] at h
      cases h

theorem c9_audio_mime_hardcoded_witness :
    lookupField (Jv.obj [("type", Jv.str "audio"), ("data", Jv.str (b64e [1, 2, 3])),
        ("mime_type", Jv.str "audio/pcm;rate=24000")]) "mime_type"
      = some (Jv.str "audio/pcm;rate=24000") ∧
    (∀ m, lookupField (geminiRecvErrorEvt m) "type" = some (Jv.str "error")) :=
  c9_audio_mime_hardcoded gwFail parseNone
    ⟨some ⟨some [⟨some ⟨some (PyData.bytes [1, 2, 3]), some "audio/wav"⟩, none⟩], false⟩, none⟩
    (Jv.obj [("type", Jv.str "audio"), ("data", Jv.str (b64e [1, 2, 3])),
        ("mime_type", Jv.str "audio/pcm;rate=24000")])
    (List.Mem.head _)
    rfl

/-- C10: an inbound client audio message whose `data` field is absent or
not a string causes no upstream send and no error report: the handler
returns successfully with no action for every possible base64 decoder,
so the decoder (and hence its failure branch) is never reached for such
messages. -/
theorem c10_nonstring_audio_ignored (dec : String → Except String (List Nat))
    (msg : List (String × Jv))
    (htype : jlookup msg "type" = some (Jv.str "audio"))
    (hdata : ∀ s, jlookup msg "data" ≠ some (Jv.str s)) :
    handle_client_msg dec msg = Except.ok [] := by
  have step : handle_client_msg dec msg =
      (match jlookup msg "data" with
       | some (Jv.str s) => (dec s).map (fun bs => [ClientAction.sendRealtimeAudio bs
           ((jlookup msg "mime_type").getD (Jv.str "audio/pcm;rate=16000"))])
       | _ => Except.ok []) := by
    unfold handle_client_msg
    rw [htype]
    rfl
  rw [step]
  split
  next s heq => exact absurd heq (hdata s)
  next => rfl

theorem c10_nonstring_audio_ignored_witness :
    handle_client_msg (fun _ => Except.error "Invalid base64-encoded string")
      [("type", Jv.str "audio"), ("data", Jv.num 7)] = Except.ok [] :=
  c10_nonstring_audio_ignored (fun _ => Except.error "Invalid base64-encoded string")
    [("type", Jv.str "audio"), ("data", Jv.num 7)] rfl
    (by intro s h; simp [jlookup] at h)
